import Mathlib

/-!
# Verification of `tcp_mux_multi.go` (package `ice`)

`MultiTCPMuxDefault` aggregates several `TCPMux` backends behind one handle.
The embedding below follows the Go source function by function.

## Modelling conventions

* A `TCPMux` is an interface in the source; its implementations are not part of
  this file.  A backend is therefore a *parameter*: an arbitrary private state
  of type `σ` together with arbitrary transition functions for its three
  methods.  Every theorem quantifies over all such backends.
* Each handle registered with the aggregator denotes its own backend instance,
  with its own private state (the backends are independent of each other).
* Go's `(net.PacketConn, error)` is a pair of options: `none` is `nil`.  Both
  components may be `nil`, and both may be non-`nil`.
* Go's `[]net.PacketConn` is a `List`; the `nil` slice is `[]`.
* Every method invocation on a backend is appended to a call log (`Trace`),
  tagged with the identity of the receiving backend.  The log is what makes
  "invoked exactly once, in registration order" a statement about the code.
-/

namespace ice

/-- Modelled from the spec: the error values of the package.  The declaration of
`errNoTCPMuxAvailable` is not in this source file; the spec calls it
`NoBackendAvailable`.  Every other error value (in particular whatever a backend
produces) is `other e`.  A backend may also return `errNoTCPMuxAvailable`. -/
inductive Error (ε : Type) where
  | errNoTCPMuxAvailable : Error ε
  | other (e : ε) : Error ε
  deriving DecidableEq, Repr

/-- One method invocation on a backend, with its arguments. -/
inductive Call where
  | GetConnByUfrag (ufrag : String) (isIPv6 : Bool) : Call
  | RemoveConnByUfrag (ufrag : String) : Call
  | Close : Call
  deriving DecidableEq, Repr

/-- An entry of the call log: the identity of the receiver and the call. -/
abbrev Event := Nat × Call

/-- The call log, oldest entry first. -/
abbrev Trace := List Event

/-- The `TCPMux` interface, as consumed by the aggregator: an instance with an
identity (`addr`), a private state, and the behaviour of its three methods. -/
structure TCPMux (σ Conn ε : Type) where
  addr : Nat
  state : σ
  onGetConnByUfrag : σ → String → Bool → (Option Conn × Option (Error ε)) × σ
  onRemoveConnByUfrag : σ → String → σ
  onClose : σ → Option (Error ε) × σ

variable {σ Conn ε : Type}

namespace TCPMux

/-- The value pair `mux.GetConnByUfrag(ufrag, isIPv6)` returns in the current state. -/
def getResult (mux : TCPMux σ Conn ε) (ufrag : String) (isIPv6 : Bool) :
    Option Conn × Option (Error ε) :=
  (mux.onGetConnByUfrag mux.state ufrag isIPv6).1

/-- The backend after `mux.GetConnByUfrag(ufrag, isIPv6)`. -/
def afterGet (mux : TCPMux σ Conn ε) (ufrag : String) (isIPv6 : Bool) : TCPMux σ Conn ε :=
  { mux with state := (mux.onGetConnByUfrag mux.state ufrag isIPv6).2 }

/-- The backend after `mux.RemoveConnByUfrag(ufrag)`. -/
def afterRemove (mux : TCPMux σ Conn ε) (ufrag : String) : TCPMux σ Conn ε :=
  { mux with state := mux.onRemoveConnByUfrag mux.state ufrag }

/-- The error `mux.Close()` returns in the current state. -/
def closeResult (mux : TCPMux σ Conn ε) : Option (Error ε) :=
  (mux.onClose mux.state).1

/-- The backend after `mux.Close()`. -/
def afterClose (mux : TCPMux σ Conn ε) : TCPMux σ Conn ε :=
  { mux with state := (mux.onClose mux.state).2 }

/-- Method call `mux.GetConnByUfrag(ufrag, isIPv6)`: the returned pair, the
backend in its new state, and the extended call log. -/
def GetConnByUfrag (mux : TCPMux σ Conn ε) (ufrag : String) (isIPv6 : Bool) (log : Trace) :
    (Option Conn × Option (Error ε)) × TCPMux σ Conn ε × Trace :=
  (mux.getResult ufrag isIPv6, mux.afterGet ufrag isIPv6,
    log ++ [(mux.addr, Call.GetConnByUfrag ufrag isIPv6)])

/-- Method call `mux.RemoveConnByUfrag(ufrag)`. -/
def RemoveConnByUfrag (mux : TCPMux σ Conn ε) (ufrag : String) (log : Trace) :
    TCPMux σ Conn ε × Trace :=
  (mux.afterRemove ufrag, log ++ [(mux.addr, Call.RemoveConnByUfrag ufrag)])

/-- Method call `mux.Close()`. -/
def Close (mux : TCPMux σ Conn ε) (log : Trace) :
    Option (Error ε) × TCPMux σ Conn ε × Trace :=
  (mux.closeResult, mux.afterClose, log ++ [(mux.addr, Call.Close)])

end TCPMux

/-- The aggregator: `type MultiTCPMuxDefault struct { muxs []TCPMux }`. -/
structure MultiTCPMuxDefault (σ Conn ε : Type) where
  muxs : List (TCPMux σ Conn ε)

/-- Constructor `NewMultiTCPMuxDefault(muxs ...TCPMux)`. -/
def NewMultiTCPMuxDefault (muxs : List (TCPMux σ Conn ε)) : MultiTCPMuxDefault σ Conn ε :=
  { muxs := muxs }

namespace MultiTCPMuxDefault

/-- Source lines 27-34.  With no backend the result is `nil, errNoTCPMuxAvailable`;
otherwise the call is forwarded to `m.muxs[0]`. -/
def GetConnByUfrag (m : MultiTCPMuxDefault σ Conn ε) (ufrag : String) (isIPv6 : Bool)
    (log : Trace) : (Option Conn × Option (Error ε)) × MultiTCPMuxDefault σ Conn ε × Trace :=
  match m.muxs with
  | [] => ((none, some Error.errNoTCPMuxAvailable), m, log)
  | mux :: rest =>
    match mux.GetConnByUfrag ufrag isIPv6 log with
    | (r, mux1, log1) => (r, { muxs := mux1 :: rest }, log1)

/-- The loop of `RemoveConnByUfrag` (source lines 39-41) over the backends that
remain to be visited. -/
def RemoveConnByUfrag.loop (ufrag : String) :
    List (TCPMux σ Conn ε) → Trace → List (TCPMux σ Conn ε) × Trace
  | [], log => ([], log)
  | mux :: rest, log =>
    match mux.RemoveConnByUfrag ufrag log with
    | (mux1, log1) =>
      match RemoveConnByUfrag.loop ufrag rest log1 with
      | (rest1, log2) => (mux1 :: rest1, log2)

/-- Source lines 38-42. -/
def RemoveConnByUfrag (m : MultiTCPMuxDefault σ Conn ε) (ufrag : String) (log : Trace) :
    MultiTCPMuxDefault σ Conn ε × Trace :=
  match RemoveConnByUfrag.loop ufrag m.muxs log with
  | (muxs1, log1) => ({ muxs := muxs1 }, log1)

/-- The loop of `GetAllConns` (source lines 51-60) over the backends that remain
to be visited; `conns` is the slice accumulated so far.  An error returns
`nil, err` at once and leaves the remaining backends untouched. -/
def GetAllConns.loop (ufrag : String) (isIPv6 : Bool) :
    List (TCPMux σ Conn ε) → List Conn → Trace →
      (List Conn × Option (Error ε)) × List (TCPMux σ Conn ε) × Trace
  | [], conns, log => ((conns, none), [], log)
  | mux :: rest, conns, log =>
    match mux.GetConnByUfrag ufrag isIPv6 log with
    | ((conn, err), mux1, log1) =>
      match err with
      | some e => (([], some e), mux1 :: rest, log1)
      | none =>
        match GetAllConns.loop ufrag isIPv6 rest
            (match conn with
             | some c => conns ++ [c]
             | none => conns) log1 with
        | (r, rest1, log2) => (r, mux1 :: rest1, log2)

/-- Source lines 45-62. -/
def GetAllConns (m : MultiTCPMuxDefault σ Conn ε) (ufrag : String) (isIPv6 : Bool)
    (log : Trace) : (List Conn × Option (Error ε)) × MultiTCPMuxDefault σ Conn ε × Trace :=
  match m.muxs with
  | [] => (([], some Error.errNoTCPMuxAvailable), m, log)
  | mux :: rest =>
    match GetAllConns.loop ufrag isIPv6 (mux :: rest) [] log with
    | (r, muxs1, log1) => (r, { muxs := muxs1 }, log1)

/-- The loop of `Close` (source lines 67-71); `err` is the error variable. -/
def Close.loop :
    List (TCPMux σ Conn ε) → Option (Error ε) → Trace →
      Option (Error ε) × List (TCPMux σ Conn ε) × Trace
  | [], err, log => (err, [], log)
  | mux :: rest, err, log =>
    match mux.Close log with
    | (e, mux1, log1) =>
      match Close.loop rest
          (match e with
           | some e1 => some e1
           | none => err) log1 with
      | (r, rest1, log2) => (r, mux1 :: rest1, log2)

/-- Source lines 65-73. -/
def Close (m : MultiTCPMuxDefault σ Conn ε) (log : Trace) :
    Option (Error ε) × MultiTCPMuxDefault σ Conn ε × Trace :=
  match Close.loop m.muxs none log with
  | (r, muxs1, log1) => (r, { muxs := muxs1 }, log1)

end MultiTCPMuxDefault

/-! ## Concrete backends used to instantiate the theorems -/

/-- A backend over state `Nat` (the number of `GetConnByUfrag` calls served) that
always answers `GetConnByUfrag` with the pair `r` and `Close` with `c`. -/
def constMux (addr : Nat) (r : Option Nat × Option (Error Nat)) (c : Option (Error Nat)) :
    TCPMux Nat Nat Nat :=
  { addr := addr
    state := 0
    onGetConnByUfrag := fun s _ _ => (r, s + 1)
    onRemoveConnByUfrag := fun _ _ => 0
    onClose := fun s => (c, s) }

/-- A get-or-create backend: its state is a counter for fresh connections and
the table of connections handed out, keyed by `(ufrag, isIPv6)`.
`GetConnByUfrag` returns the connection of the key when there is one and
otherwise creates a fresh one; `RemoveConnByUfrag` drops the entries of the
ufrag; `Close` empties the table. -/
def tableMux (addr : Nat) : TCPMux (Nat × List ((String × Bool) × Nat)) Nat Nat :=
  { addr := addr
    state := (0, [])
    onGetConnByUfrag := fun s ufrag isIPv6 =>
      match s.2.lookup (ufrag, isIPv6) with
      | some c => ((some c, none), s)
      | none => ((some s.1, none), (s.1 + 1, ((ufrag, isIPv6), s.1) :: s.2))
    onRemoveConnByUfrag := fun s ufrag => (s.1, s.2.filter (fun x => x.1.1 != ufrag))
    onClose := fun s => (none, (s.1, [])) }

/-! ## Driving a backend and the aggregator with the same calls

The three operations that a backend and the aggregator have in common are the
constructors of `Call`.  `perform` dispatches one call to the method of that
name, `run` a sequence of calls, collecting what each call returns. -/

/-- What a call returns: the pair of `GetConnByUfrag`, nothing for
`RemoveConnByUfrag`, the error of `Close`. -/
inductive Reply (Conn ε : Type) where
  | conn (r : Option Conn × Option (Error ε)) : Reply Conn ε
  | removed : Reply Conn ε
  | closed (err : Option (Error ε)) : Reply Conn ε
  deriving DecidableEq, Repr

/-- One call made directly on a backend. -/
def TCPMux.perform (mux : TCPMux σ Conn ε) (c : Call) (log : Trace) :
    Reply Conn ε × TCPMux σ Conn ε × Trace :=
  match c with
  | Call.GetConnByUfrag ufrag isIPv6 =>
    match mux.GetConnByUfrag ufrag isIPv6 log with
    | (r, mux1, log1) => (Reply.conn r, mux1, log1)
  | Call.RemoveConnByUfrag ufrag =>
    match mux.RemoveConnByUfrag ufrag log with
    | (mux1, log1) => (Reply.removed, mux1, log1)
  | Call.Close =>
    match mux.Close log with
    | (e, mux1, log1) => (Reply.closed e, mux1, log1)

/-- A sequence of calls made directly on a backend. -/
def TCPMux.run (mux : TCPMux σ Conn ε) :
    List Call → Trace → List (Reply Conn ε) × TCPMux σ Conn ε × Trace
  | [], log => ([], mux, log)
  | c :: cs, log =>
    match mux.perform c log with
    | (r, mux1, log1) =>
      match TCPMux.run mux1 cs log1 with
      | (rs, mux2, log2) => (r :: rs, mux2, log2)

/-- One call made on the aggregator. -/
def MultiTCPMuxDefault.perform (m : MultiTCPMuxDefault σ Conn ε) (c : Call) (log : Trace) :
    Reply Conn ε × MultiTCPMuxDefault σ Conn ε × Trace :=
  match c with
  | Call.GetConnByUfrag ufrag isIPv6 =>
    match m.GetConnByUfrag ufrag isIPv6 log with
    | (r, m1, log1) => (Reply.conn r, m1, log1)
  | Call.RemoveConnByUfrag ufrag =>
    match m.RemoveConnByUfrag ufrag log with
    | (m1, log1) => (Reply.removed, m1, log1)
  | Call.Close =>
    match m.Close log with
    | (e, m1, log1) => (Reply.closed e, m1, log1)

/-- A sequence of calls made on the aggregator. -/
def MultiTCPMuxDefault.run (m : MultiTCPMuxDefault σ Conn ε) :
    List Call → Trace → List (Reply Conn ε) × MultiTCPMuxDefault σ Conn ε × Trace
  | [], log => ([], m, log)
  | c :: cs, log =>
    match m.perform c log with
    | (r, m1, log1) =>
      match MultiTCPMuxDefault.run m1 cs log1 with
      | (rs, m2, log2) => (r :: rs, m2, log2)

/-! ## Characterisation of the loops -/

namespace MultiTCPMuxDefault

/-- The log entry of a `GetConnByUfrag` call on `b`. -/
def getEvent (ufrag : String) (isIPv6 : Bool) (b : TCPMux σ Conn ε) : Event :=
  (b.addr, Call.GetConnByUfrag ufrag isIPv6)

/-- The log entry of a `RemoveConnByUfrag` call on `b`. -/
def removeEvent (ufrag : String) (b : TCPMux σ Conn ε) : Event :=
  (b.addr, Call.RemoveConnByUfrag ufrag)

/-- The log entry of a `Close` call on `b`. -/
def closeEvent (b : TCPMux σ Conn ε) : Event :=
  (b.addr, Call.Close)

theorem removeLoop_eq (ufrag : String) (muxs : List (TCPMux σ Conn ε)) (log : Trace) :
    RemoveConnByUfrag.loop ufrag muxs log =
      (muxs.map (fun b => b.afterRemove ufrag), log ++ muxs.map (removeEvent ufrag)) := by
  induction muxs generalizing log with
  | nil => simp [RemoveConnByUfrag.loop]
  | cons b rest ih =>
    simp [RemoveConnByUfrag.loop, TCPMux.RemoveConnByUfrag, ih, removeEvent]

theorem closeLoop_effect (muxs : List (TCPMux σ Conn ε)) (err : Option (Error ε)) (log : Trace) :
    (Close.loop muxs err log).2 =
      (muxs.map (fun b => b.afterClose), log ++ muxs.map closeEvent) := by
  induction muxs generalizing err log with
  | nil => simp [Close.loop]
  | cons b rest ih =>
    simp [Close.loop, TCPMux.Close, ih, closeEvent]

theorem closeLoop_result_of_all_nil (muxs : List (TCPMux σ Conn ε)) (err : Option (Error ε))
    (log : Trace) (h : ∀ a ∈ muxs, a.closeResult = none) :
    (Close.loop muxs err log).1 = err := by
  induction muxs generalizing err log with
  | nil => simp [Close.loop]
  | cons b rest ih =>
    have hb : b.closeResult = none := h b (List.mem_cons_self _ _)
    have hrest : ∀ a ∈ rest, a.closeResult = none :=
      fun a ha => h a (List.mem_cons_of_mem _ ha)
    simp [Close.loop, TCPMux.Close, hb, ih _ _ hrest]

theorem closeLoop_result_of_last (pre : List (TCPMux σ Conn ε)) (b : TCPMux σ Conn ε)
    (post : List (TCPMux σ Conn ε)) (e : Error ε) (err : Option (Error ε)) (log : Trace)
    (hb : b.closeResult = some e) (hpost : ∀ a ∈ post, a.closeResult = none) :
    (Close.loop (pre ++ b :: post) err log).1 = some e := by
  induction pre generalizing err log with
  | nil => simp [Close.loop, TCPMux.Close, hb, closeLoop_result_of_all_nil _ _ _ hpost]
  | cons a pre ih => simp [Close.loop, ih]

/-- A list in which some element satisfies `p` splits at the last such element. -/
theorem exists_last_split {α : Type} (p : α → Prop) (l : List α) (h : ∃ a ∈ l, p a) :
    ∃ pre b post, l = pre ++ b :: post ∧ p b ∧ ∀ a ∈ post, ¬ p a := by
  induction l with
  | nil => simp at h
  | cons x rest ih =>
    by_cases hr : ∃ a ∈ rest, p a
    · obtain ⟨pre, b, post, hl, hb, hpost⟩ := ih hr
      exact ⟨x :: pre, b, post, by simp [hl], hb, hpost⟩
    · have hx : p x := by
        obtain ⟨a, ha, hpa⟩ := h
        rcases List.mem_cons.mp ha with rfl | ha
        · exact hpa
        · exact absurd ⟨a, ha, hpa⟩ hr
      exact ⟨[], x, rest, rfl, hx, fun a ha hpa => hr ⟨a, ha, hpa⟩⟩

/-- A list in which some element satisfies `p` splits at the first such element. -/
theorem exists_first_split {α : Type} (p : α → Prop) (l : List α) (h : ∃ a ∈ l, p a) :
    ∃ pre b post, l = pre ++ b :: post ∧ p b ∧ ∀ a ∈ pre, ¬ p a := by
  induction l with
  | nil => simp at h
  | cons x rest ih =>
    by_cases hx : p x
    · exact ⟨[], x, rest, rfl, hx, by simp⟩
    · have hr : ∃ a ∈ rest, p a := by
        obtain ⟨a, ha, hpa⟩ := h
        rcases List.mem_cons.mp ha with rfl | ha
        · exact absurd hpa hx
        · exact ⟨a, ha, hpa⟩
      obtain ⟨pre, b, post, hl, hb, hpre⟩ := ih hr
      refine ⟨x :: pre, b, post, by simp [hl], hb, ?_⟩
      intro a ha
      rcases List.mem_cons.mp ha with rfl | ha
      · exact hx
      · exact hpre a ha

theorem getAllLoop_of_no_error (ufrag : String) (isIPv6 : Bool)
    (muxs : List (TCPMux σ Conn ε)) (conns : List Conn) (log : Trace)
    (h : ∀ a ∈ muxs, (a.getResult ufrag isIPv6).2 = none) :
    GetAllConns.loop ufrag isIPv6 muxs conns log =
      ((conns ++ muxs.filterMap (fun b => (b.getResult ufrag isIPv6).1), none),
        muxs.map (fun b => b.afterGet ufrag isIPv6),
        log ++ muxs.map (getEvent ufrag isIPv6)) := by
  induction muxs generalizing conns log with
  | nil => simp [GetAllConns.loop]
  | cons b rest ih =>
    have hb : (b.getResult ufrag isIPv6).2 = none := h b (List.mem_cons_self _ _)
    have hrest : ∀ a ∈ rest, (a.getResult ufrag isIPv6).2 = none :=
      fun a ha => h a (List.mem_cons_of_mem _ ha)
    cases hc : (b.getResult ufrag isIPv6).1 with
    | none =>
      have hr : b.getResult ufrag isIPv6 = (none, none) := Prod.ext hc hb
      simp [GetAllConns.loop, TCPMux.GetConnByUfrag, hr, ih _ _ hrest, getEvent]
    | some c =>
      have hr : b.getResult ufrag isIPv6 = (some c, none) := Prod.ext hc hb
      simp [GetAllConns.loop, TCPMux.GetConnByUfrag, hr, ih _ _ hrest, getEvent]

theorem getAllLoop_of_first_error (ufrag : String) (isIPv6 : Bool)
    (pre : List (TCPMux σ Conn ε)) (b : TCPMux σ Conn ε) (post : List (TCPMux σ Conn ε))
    (e : Error ε) (conns : List Conn) (log : Trace)
    (hpre : ∀ a ∈ pre, (a.getResult ufrag isIPv6).2 = none)
    (hb : (b.getResult ufrag isIPv6).2 = some e) :
    GetAllConns.loop ufrag isIPv6 (pre ++ b :: post) conns log =
      (([], some e),
        pre.map (fun a => a.afterGet ufrag isIPv6) ++ b.afterGet ufrag isIPv6 :: post,
        log ++ (pre ++ [b]).map (getEvent ufrag isIPv6)) := by
  induction pre generalizing conns log with
  | nil =>
    have hr : b.getResult ufrag isIPv6 = ((b.getResult ufrag isIPv6).1, some e) :=
      Prod.ext rfl hb
    simp only [List.nil_append, GetAllConns.loop, TCPMux.GetConnByUfrag]
    rw [hr]
    simp [getEvent]
  | cons a pre ih =>
    have ha : (a.getResult ufrag isIPv6).2 = none := hpre a (List.mem_cons_self _ _)
    have hrest : ∀ x ∈ pre, (x.getResult ufrag isIPv6).2 = none :=
      fun x hx => hpre x (List.mem_cons_of_mem _ hx)
    have hr : a.getResult ufrag isIPv6 = ((a.getResult ufrag isIPv6).1, none) :=
      Prod.ext rfl ha
    simp only [List.cons_append, GetAllConns.loop, TCPMux.GetConnByUfrag]
    rw [hr]
    simp [ih _ _ hrest, getEvent]

theorem getAllConns_eq_loop (muxs : List (TCPMux σ Conn ε)) (hne : muxs ≠ [])
    (ufrag : String) (isIPv6 : Bool) (log : Trace) :
    (NewMultiTCPMuxDefault muxs).GetAllConns ufrag isIPv6 log =
      ((GetAllConns.loop ufrag isIPv6 muxs [] log).1,
        { muxs := (GetAllConns.loop ufrag isIPv6 muxs [] log).2.1 },
        (GetAllConns.loop ufrag isIPv6 muxs [] log).2.2) := by
  cases muxs with
  | nil => exact absurd rfl hne
  | cons b rest => rfl

end MultiTCPMuxDefault

/-! ## Claims -/

/-- C1: for an aggregator built by `NewMultiTCPMuxDefault` with at least one
backend (`mux` first, any further backends `rest`), `GetConnByUfrag` returns
exactly the pair that the first backend's `GetConnByUfrag(ufrag, isIPv6)`
returns, whether it is a success or an error. -/
theorem C1_getConnByUfrag_returns_first_backend_pair
    (mux : TCPMux σ Conn ε) (rest : List (TCPMux σ Conn ε))
    (ufrag : String) (isIPv6 : Bool) (log : Trace) :
    ((NewMultiTCPMuxDefault (mux :: rest)).GetConnByUfrag ufrag isIPv6 log).1 =
      (mux.GetConnByUfrag ufrag isIPv6 log).1 := by
  rfl

/-- C2: for an aggregator constructed with an empty backend list, both
`GetConnByUfrag` and `GetAllConns` fail with `errNoTCPMuxAvailable` and return
a nil connection, respectively a nil connection list. -/
theorem C2_empty_aggregator_reads_fail (ufrag : String) (isIPv6 : Bool) (log : Trace) :
    ((NewMultiTCPMuxDefault ([] : List (TCPMux σ Conn ε))).GetConnByUfrag ufrag isIPv6 log).1 =
        (none, some Error.errNoTCPMuxAvailable) ∧
      ((NewMultiTCPMuxDefault ([] : List (TCPMux σ Conn ε))).GetAllConns ufrag isIPv6 log).1 =
        ([], some Error.errNoTCPMuxAvailable) := by
  exact ⟨rfl, rfl⟩

/-- C3: for a non-empty aggregator for which no backend returns an error,
`GetAllConns` returns a nil error and exactly the non-nil connections returned by
the backends, in registration order (a nil connection without error is skipped);
when every backend returns a non-nil connection, the i-th element of the result
is the connection returned by the i-th backend. -/
theorem C3_getAllConns_collects_in_order
    (muxs : List (TCPMux σ Conn ε)) (ufrag : String) (isIPv6 : Bool) (log : Trace)
    (hne : muxs ≠ [])
    (hok : ∀ b ∈ muxs, (b.getResult ufrag isIPv6).2 = none) :
    ((NewMultiTCPMuxDefault muxs).GetAllConns ufrag isIPv6 log).1 =
        (muxs.filterMap (fun b => (b.getResult ufrag isIPv6).1), none) ∧
      ((∀ b ∈ muxs, (b.getResult ufrag isIPv6).1 ≠ none) →
        ((NewMultiTCPMuxDefault muxs).GetAllConns ufrag isIPv6 log).1.1.map some =
          muxs.map (fun b => (b.getResult ufrag isIPv6).1)) := by
  have hres : ((NewMultiTCPMuxDefault muxs).GetAllConns ufrag isIPv6 log).1 =
      (muxs.filterMap (fun b => (b.getResult ufrag isIPv6).1), none) := by
    rw [MultiTCPMuxDefault.getAllConns_eq_loop muxs hne,
      MultiTCPMuxDefault.getAllLoop_of_no_error ufrag isIPv6 muxs [] log hok]
    simp
  refine ⟨hres, ?_⟩
  intro hall
  rw [hres]
  clear hres hok hne
  induction muxs with
  | nil => simp
  | cons b rest ih =>
    have hb : (b.getResult ufrag isIPv6).1 ≠ none := hall b (List.mem_cons_self _ _)
    obtain ⟨c, hc⟩ := Option.ne_none_iff_exists'.mp hb
    have hrest := ih (fun a ha => hall a (List.mem_cons_of_mem _ ha))
    simp only [List.filterMap_cons, hc, List.map_cons]
    simpa using hrest

/-- Witness for C3: two backends returning connections `1` and `2` give `[1, 2]`. -/
theorem C3_getAllConns_collects_in_order_witness :
    ((NewMultiTCPMuxDefault
        [constMux 10 (some 1, none) none, constMux 20 (some 2, none) none]).GetAllConns
          "u" false []).1 = ([1, 2], none) :=
  (C3_getAllConns_collects_in_order
    [constMux 10 (some 1, none) none, constMux 20 (some 2, none) none] "u" false []
    (by simp) (by simp [constMux, TCPMux.getResult])).1

/-- C4: for a non-empty aggregator for which at least one backend returns an
error, `GetAllConns` returns a nil connection list (never a partial one) together
with, verbatim, the error of the first backend in registration order that returned
an error: such a first failing backend exists, and wherever the list splits at its
first failing backend `b`, the result is `nil` with the error of `b`. -/
theorem C4_getAllConns_first_error_no_partial_list
    (muxs : List (TCPMux σ Conn ε)) (ufrag : String) (isIPv6 : Bool) (log : Trace)
    (herr : ∃ b ∈ muxs, (b.getResult ufrag isIPv6).2 ≠ none) :
    (∃ pre b post e,
      muxs = pre ++ b :: post ∧
      (∀ a ∈ pre, (a.getResult ufrag isIPv6).2 = none) ∧
      (b.getResult ufrag isIPv6).2 = some e ∧
      ((NewMultiTCPMuxDefault muxs).GetAllConns ufrag isIPv6 log).1 = ([], some e)) ∧
    (∀ pre b post e,
      muxs = pre ++ b :: post →
      (∀ a ∈ pre, (a.getResult ufrag isIPv6).2 = none) →
      (b.getResult ufrag isIPv6).2 = some e →
      ((NewMultiTCPMuxDefault muxs).GetAllConns ufrag isIPv6 log).1 = ([], some e)) := by
  have key : ∀ pre b post e,
      muxs = pre ++ b :: post →
      (∀ a ∈ pre, (a.getResult ufrag isIPv6).2 = none) →
      (b.getResult ufrag isIPv6).2 = some e →
      ((NewMultiTCPMuxDefault muxs).GetAllConns ufrag isIPv6 log).1 = ([], some e) := by
    intro pre b post e hl hpre he
    have hne : muxs ≠ [] := by
      rw [hl]
      simp
    rw [MultiTCPMuxDefault.getAllConns_eq_loop muxs hne, hl,
      MultiTCPMuxDefault.getAllLoop_of_first_error ufrag isIPv6 pre b post e [] log hpre he]
  refine ⟨?_, key⟩
  obtain ⟨pre, b, post, hl, hb, hpre⟩ :=
    MultiTCPMuxDefault.exists_first_split
      (fun a : TCPMux σ Conn ε => (a.getResult ufrag isIPv6).2 ≠ none) muxs herr
  obtain ⟨e, he⟩ := Option.ne_none_iff_exists'.mp hb
  have hpre2 : ∀ a ∈ pre, (a.getResult ufrag isIPv6).2 = none :=
    fun a ha => not_not.mp (hpre a ha)
  exact ⟨pre, b, post, e, hl, hpre2, he, key pre b post e hl hpre2 he⟩

/-- Witness for C4: backend A succeeds with connection `1`, backend B fails with
`other 7`; the result is B's error and a nil list. -/
theorem C4_getAllConns_first_error_no_partial_list_witness :
    ((NewMultiTCPMuxDefault
      [constMux 10 (some 1, none) none,
        constMux 20 (none, some (Error.other 7)) none]).GetAllConns "u" false []).1 =
      ([], some (Error.other 7)) :=
  (C4_getAllConns_first_error_no_partial_list
    [constMux 10 (some 1, none) none, constMux 20 (none, some (Error.other 7)) none]
    "u" false []
    ⟨constMux 20 (none, some (Error.other 7)) none, by simp,
      by simp [constMux, TCPMux.getResult]⟩).2
    [constMux 10 (some 1, none) none] (constMux 20 (none, some (Error.other 7)) none) []
    (Error.other 7) rfl (by simp [constMux, TCPMux.getResult]) rfl

/-- C5 (the source comment "Make sure that we either return at least one
connection or an error" fails here): when every backend of a non-empty aggregator
answers `nil, nil`, `GetAllConns` returns a nil error together with an empty
list. -/
theorem C5_getAllConns_all_nil_returns_neither
    (muxs : List (TCPMux σ Conn ε)) (ufrag : String) (isIPv6 : Bool) (log : Trace)
    (hne : muxs ≠ [])
    (hnil : ∀ b ∈ muxs, b.getResult ufrag isIPv6 = (none, none)) :
    ((NewMultiTCPMuxDefault muxs).GetAllConns ufrag isIPv6 log).1 = ([], none) := by
  have hok : ∀ b ∈ muxs, (b.getResult ufrag isIPv6).2 = none := by
    intro b hb
    rw [hnil b hb]
  rw [MultiTCPMuxDefault.getAllConns_eq_loop muxs hne,
    MultiTCPMuxDefault.getAllLoop_of_no_error ufrag isIPv6 muxs [] log hok]
  have hfm : muxs.filterMap (fun b => (b.getResult ufrag isIPv6).1) = [] := by
    rw [List.filterMap_eq_nil_iff]
    intro b hb
    rw [hnil b hb]
  simp [hfm]

/-- The failing input of C5: one backend answering `nil, nil`.  `GetAllConns`
returns no error and no connection. -/
theorem C5_getAllConns_all_nil_returns_neither_witness :
    ((NewMultiTCPMuxDefault [constMux 10 (none, none) none]).GetAllConns "u" false []).1 =
      ([], none) :=
  C5_getAllConns_all_nil_returns_neither [constMux 10 (none, none) none] "u" false []
    (by simp) (by simp [constMux, TCPMux.getResult])

/-- Counterexample to C6: with two backends, the first returning connection `1` and
the second returning `nil, nil`, `GetAllConns` returns no error and a list of
length 1, not 2. -/
theorem C6_length_equals_backend_count_fails :
    ¬ (((NewMultiTCPMuxDefault
          [constMux 10 (some 1, none) none, constMux 20 (none, none) none]).GetAllConns
            "u" false []).1.2 = none →
        ((NewMultiTCPMuxDefault
          [constMux 10 (some 1, none) none, constMux 20 (none, none) none]).GetAllConns
            "u" false []).1.1.length =
          [constMux 10 (some 1, none) none, constMux 20 (none, none) none].length) := by
  intro h
  exact absurd (h rfl) (by decide)

/-- C6 as amended: for a non-empty aggregator, when `GetAllConns` returns no error
the returned list holds one PacketConn for each backend that returned a non-nil
connection: its length is the number of such backends, hence at most the number of
registered backends, and equal to it when every backend returned a non-nil
connection. -/
theorem C6_getAllConns_length_counts_non_nil
    (muxs : List (TCPMux σ Conn ε)) (ufrag : String) (isIPv6 : Bool) (log : Trace)
    (hne : muxs ≠ [])
    (hok : ((NewMultiTCPMuxDefault muxs).GetAllConns ufrag isIPv6 log).1.2 = none) :
    ((NewMultiTCPMuxDefault muxs).GetAllConns ufrag isIPv6 log).1.1.length =
        (muxs.filter (fun b => ((b.getResult ufrag isIPv6).1).isSome)).length ∧
      ((NewMultiTCPMuxDefault muxs).GetAllConns ufrag isIPv6 log).1.1.length ≤ muxs.length ∧
      ((∀ b ∈ muxs, (b.getResult ufrag isIPv6).1 ≠ none) →
        ((NewMultiTCPMuxDefault muxs).GetAllConns ufrag isIPv6 log).1.1.length =
          muxs.length) := by
  have hall : ∀ b ∈ muxs, (b.getResult ufrag isIPv6).2 = none := by
    by_contra hcon
    push_neg at hcon
    obtain ⟨pre, b, post, hl, hb, hpre⟩ :=
      MultiTCPMuxDefault.exists_first_split
        (fun a : TCPMux σ Conn ε => (a.getResult ufrag isIPv6).2 ≠ none) muxs hcon
    obtain ⟨e, he⟩ := Option.ne_none_iff_exists'.mp hb
    have hpre2 : ∀ a ∈ pre, (a.getResult ufrag isIPv6).2 = none :=
      fun a ha => not_not.mp (hpre a ha)
    rw [MultiTCPMuxDefault.getAllConns_eq_loop muxs hne, hl,
      MultiTCPMuxDefault.getAllLoop_of_first_error ufrag isIPv6 pre b post e [] log hpre2 he]
      at hok
    simp at hok
  have hlen : ∀ l : List (TCPMux σ Conn ε),
      (l.filterMap (fun b => (b.getResult ufrag isIPv6).1)).length =
        (l.filter (fun b => ((b.getResult ufrag isIPv6).1).isSome)).length := by
    intro l
    induction l with
    | nil => simp
    | cons a rest ih =>
      cases hc : (a.getResult ufrag isIPv6).1 with
      | none => simp [List.filterMap_cons, List.filter_cons, hc, ih]
      | some c => simp [List.filterMap_cons, List.filter_cons, hc, ih]
  have hres : ((NewMultiTCPMuxDefault muxs).GetAllConns ufrag isIPv6 log).1.1 =
      muxs.filterMap (fun b => (b.getResult ufrag isIPv6).1) := by
    rw [MultiTCPMuxDefault.getAllConns_eq_loop muxs hne,
      MultiTCPMuxDefault.getAllLoop_of_no_error ufrag isIPv6 muxs [] log hall]
    simp
  rw [hres, hlen]
  refine ⟨rfl, List.length_filter_le _ _, ?_⟩
  intro hsome
  have hf : muxs.filter (fun b => ((b.getResult ufrag isIPv6).1).isSome) = muxs := by
    rw [List.filter_eq_self]
    intro b hb
    exact Option.isSome_iff_ne_none.mpr (hsome b hb)
  rw [hf]

/-- Witness for amended C6: the first backend returns connection `1`, the second
`nil, nil`; the list has length 1, which is at most 2. -/
theorem C6_getAllConns_length_counts_non_nil_witness :
    ((NewMultiTCPMuxDefault
        [constMux 10 (some 1, none) none, constMux 20 (none, none) none]).GetAllConns
          "u" false []).1.1.length ≤ 2 :=
  (C6_getAllConns_length_counts_non_nil
    [constMux 10 (some 1, none) none, constMux 20 (none, none) none] "u" false []
    (by simp) rfl).2.1

/-- C7: if at least one backend's `Close` returns an error, the aggregator's
`Close` returns exactly the error of the last backend in registration order whose
`Close` failed: such a last failing backend exists, and wherever the list splits
at its last failing backend `b`, `Close` returns the error of `b`, whatever the
backends before `b` returned. -/
theorem C7_close_returns_last_error
    (muxs : List (TCPMux σ Conn ε)) (log : Trace)
    (herr : ∃ b ∈ muxs, b.closeResult ≠ none) :
    (∃ pre b post e,
      muxs = pre ++ b :: post ∧
      b.closeResult = some e ∧
      (∀ a ∈ post, a.closeResult = none) ∧
      ((NewMultiTCPMuxDefault muxs).Close log).1 = some e) ∧
    (∀ pre b post e,
      muxs = pre ++ b :: post →
      b.closeResult = some e →
      (∀ a ∈ post, a.closeResult = none) →
      ((NewMultiTCPMuxDefault muxs).Close log).1 = some e) := by
  have key : ∀ pre b post e,
      muxs = pre ++ b :: post →
      b.closeResult = some e →
      (∀ a ∈ post, a.closeResult = none) →
      ((NewMultiTCPMuxDefault muxs).Close log).1 = some e := by
    intro pre b post e hl he hpost
    have h := MultiTCPMuxDefault.closeLoop_result_of_last pre b post e none log he hpost
    rw [← hl] at h
    exact h
  refine ⟨?_, key⟩
  obtain ⟨pre, b, post, hl, hb, hpost⟩ :=
    MultiTCPMuxDefault.exists_last_split
      (fun a : TCPMux σ Conn ε => a.closeResult ≠ none) muxs herr
  obtain ⟨e, he⟩ := Option.ne_none_iff_exists'.mp hb
  have hpost2 : ∀ a ∈ post, a.closeResult = none :=
    fun a ha => not_not.mp (hpost a ha)
  exact ⟨pre, b, post, e, hl, he, hpost2, key pre b post e hl he hpost2⟩

/-- Witness for C7: two backends whose `Close` fails with `other 1` then `other 2`;
the aggregator's `Close` returns `other 2`. -/
theorem C7_close_returns_last_error_witness :
    ((NewMultiTCPMuxDefault
      [constMux 10 (none, none) (some (Error.other 1)),
        constMux 20 (none, none) (some (Error.other 2))]).Close []).1 =
      some (Error.other 2) :=
  (C7_close_returns_last_error
    [constMux 10 (none, none) (some (Error.other 1)),
      constMux 20 (none, none) (some (Error.other 2))] []
    ⟨constMux 10 (none, none) (some (Error.other 1)), by simp,
      by simp [constMux, TCPMux.closeResult]⟩).2
    [constMux 10 (none, none) (some (Error.other 1))]
    (constMux 20 (none, none) (some (Error.other 2))) [] (Error.other 2) rfl rfl (by simp)

/-- C8: `Close` invokes `Close` on every backend exactly once, in registration
order and without short-circuit: whatever the backends return, the calls added to
the log are one `Close` per backend, in list order, and every backend ends in the
state its own `Close` produces. -/
theorem C8_close_invokes_every_backend_once
    (muxs : List (TCPMux σ Conn ε)) (log : Trace) :
    ((NewMultiTCPMuxDefault muxs).Close log).2.2 =
        log ++ muxs.map (fun b => (b.addr, Call.Close)) ∧
      ((NewMultiTCPMuxDefault muxs).Close log).2.1.muxs =
        muxs.map (fun b => b.afterClose) := by
  have h := MultiTCPMuxDefault.closeLoop_effect muxs none log
  constructor
  · exact congrArg Prod.snd h
  · exact congrArg Prod.fst h

/-- C9: `RemoveConnByUfrag(u)` invokes `RemoveConnByUfrag(u)` on each backend
exactly once, in registration order and with the same ufrag, unconditionally: the
calls added to the log are one `RemoveConnByUfrag u` per backend, in list order,
and every backend ends in the state its own `RemoveConnByUfrag(u)` produces. -/
theorem C9_removeConnByUfrag_broadcasts_once
    (muxs : List (TCPMux σ Conn ε)) (ufrag : String) (log : Trace) :
    ((NewMultiTCPMuxDefault muxs).RemoveConnByUfrag ufrag log).2 =
        log ++ muxs.map (fun b => (b.addr, Call.RemoveConnByUfrag ufrag)) ∧
      ((NewMultiTCPMuxDefault muxs).RemoveConnByUfrag ufrag log).1.muxs =
        muxs.map (fun b => b.afterRemove ufrag) := by
  have h := MultiTCPMuxDefault.removeLoop_eq ufrag muxs log
  constructor
  · exact congrArg Prod.snd h
  · exact congrArg Prod.fst h

/-- C10: with at least one backend, `GetConnByUfrag` queries only the first
backend: the only call added to the log is one `GetConnByUfrag(ufrag, isIPv6)` on
backend 0, backend 0 ends in the state its own call produces, and the backends at
index 1 and above are unchanged. -/
theorem C10_getConnByUfrag_touches_only_first
    (mux : TCPMux σ Conn ε) (rest : List (TCPMux σ Conn ε))
    (ufrag : String) (isIPv6 : Bool) (log : Trace) :
    ((NewMultiTCPMuxDefault (mux :: rest)).GetConnByUfrag ufrag isIPv6 log).2.2 =
        log ++ [(mux.addr, Call.GetConnByUfrag ufrag isIPv6)] ∧
      ((NewMultiTCPMuxDefault (mux :: rest)).GetConnByUfrag ufrag isIPv6 log).2.1.muxs =
        mux.afterGet ufrag isIPv6 :: rest ∧
      ∀ i : Nat,
        ((NewMultiTCPMuxDefault (mux :: rest)).GetConnByUfrag ufrag isIPv6 log).2.1.muxs[i + 1]? =
          (mux :: rest)[i + 1]? := by
  refine ⟨rfl, rfl, ?_⟩
  intro i
  rfl

/-- C11: for an aggregator constructed with an empty backend list,
`RemoveConnByUfrag(u)` and `Close` are no-ops: no backend operation is invoked
(the call log is unchanged), the aggregator is unchanged, and `Close` returns a
nil error. -/
theorem C11_empty_aggregator_remove_and_close_are_noops (ufrag : String) (log : Trace) :
    (NewMultiTCPMuxDefault ([] : List (TCPMux σ Conn ε))).RemoveConnByUfrag ufrag log =
        (NewMultiTCPMuxDefault [], log) ∧
      (NewMultiTCPMuxDefault ([] : List (TCPMux σ Conn ε))).Close log =
        (none, NewMultiTCPMuxDefault [], log) := by
  exact ⟨rfl, rfl⟩

theorem perform_single (b : TCPMux σ Conn ε) (c : Call) (log : Trace) :
    (NewMultiTCPMuxDefault [b]).perform c log =
      ((b.perform c log).1, NewMultiTCPMuxDefault [(b.perform c log).2.1],
        (b.perform c log).2.2) := by
  cases c with
  | GetConnByUfrag ufrag isIPv6 => rfl
  | RemoveConnByUfrag ufrag => rfl
  | Close =>
    cases h : b.closeResult with
    | none =>
      simp [MultiTCPMuxDefault.perform, MultiTCPMuxDefault.Close,
        MultiTCPMuxDefault.Close.loop, TCPMux.perform, TCPMux.Close, NewMultiTCPMuxDefault, h]
    | some e =>
      simp [MultiTCPMuxDefault.perform, MultiTCPMuxDefault.Close,
        MultiTCPMuxDefault.Close.loop, TCPMux.perform, TCPMux.Close, NewMultiTCPMuxDefault, h]

/-- C12: an aggregator constructed with exactly one backend is substitutable for
that backend: each of `GetConnByUfrag(u, v)`, `RemoveConnByUfrag(u)` and `Close`
on the aggregator returns what the same call made directly on the backend
returns, leaves the backend in the same state and makes the same backend call;
and so does every sequence of such calls. -/
theorem C12_single_backend_aggregator_is_substitutable
    (b : TCPMux σ Conn ε) (log : Trace) :
    (∀ c : Call,
      (NewMultiTCPMuxDefault [b]).perform c log =
        ((b.perform c log).1, NewMultiTCPMuxDefault [(b.perform c log).2.1],
          (b.perform c log).2.2)) ∧
    (∀ cs : List Call,
      (NewMultiTCPMuxDefault [b]).run cs log =
        ((b.run cs log).1, NewMultiTCPMuxDefault [(b.run cs log).2.1],
          (b.run cs log).2.2)) := by
  refine ⟨fun c => perform_single b c log, ?_⟩
  intro cs
  induction cs generalizing b log with
  | nil => simp [MultiTCPMuxDefault.run, TCPMux.run]
  | cons c cs ih =>
    rw [MultiTCPMuxDefault.run, TCPMux.run, perform_single b c log]
    simp only []
    rw [ih]

theorem getAllConns_of_no_error (muxs : List (TCPMux σ Conn ε)) (hne : muxs ≠ [])
    (ufrag : String) (isIPv6 : Bool) (log : Trace)
    (h : ∀ a ∈ muxs, (a.getResult ufrag isIPv6).2 = none) :
    (NewMultiTCPMuxDefault muxs).GetAllConns ufrag isIPv6 log =
      ((muxs.filterMap (fun b => (b.getResult ufrag isIPv6).1), none),
        NewMultiTCPMuxDefault (muxs.map (fun b => b.afterGet ufrag isIPv6)),
        log ++ muxs.map (fun b => (b.addr, Call.GetConnByUfrag ufrag isIPv6))) := by
  rw [MultiTCPMuxDefault.getAllConns_eq_loop muxs hne,
    MultiTCPMuxDefault.getAllLoop_of_no_error ufrag isIPv6 muxs [] log h]
  simp only [List.nil_append]
  rfl

theorem getAllConns_of_first_error (pre : List (TCPMux σ Conn ε)) (b : TCPMux σ Conn ε)
    (post : List (TCPMux σ Conn ε)) (e : Error ε)
    (ufrag : String) (isIPv6 : Bool) (log : Trace)
    (hpre : ∀ a ∈ pre, (a.getResult ufrag isIPv6).2 = none)
    (hb : (b.getResult ufrag isIPv6).2 = some e) :
    (NewMultiTCPMuxDefault (pre ++ b :: post)).GetAllConns ufrag isIPv6 log =
      (([], some e),
        NewMultiTCPMuxDefault
          (pre.map (fun a => a.afterGet ufrag isIPv6) ++ b.afterGet ufrag isIPv6 :: post),
        log ++ (pre ++ [b]).map (fun a => (a.addr, Call.GetConnByUfrag ufrag isIPv6))) := by
  rw [MultiTCPMuxDefault.getAllConns_eq_loop (pre ++ b :: post) (by simp),
    MultiTCPMuxDefault.getAllLoop_of_first_error ufrag isIPv6 pre b post e [] log hpre hb]
  rfl

theorem getAllConns_no_error_imp (muxs : List (TCPMux σ Conn ε))
    (ufrag : String) (isIPv6 : Bool) (log : Trace)
    (hok : ((NewMultiTCPMuxDefault muxs).GetAllConns ufrag isIPv6 log).1.2 = none) :
    ∀ b ∈ muxs, (b.getResult ufrag isIPv6).2 = none := by
  by_contra hcon
  push_neg at hcon
  obtain ⟨pre, b, post, hl, hb, hpre⟩ :=
    MultiTCPMuxDefault.exists_first_split
      (fun a : TCPMux σ Conn ε => (a.getResult ufrag isIPv6).2 ≠ none) muxs hcon
  obtain ⟨e, he⟩ := Option.ne_none_iff_exists'.mp hb
  have hpre2 : ∀ a ∈ pre, (a.getResult ufrag isIPv6).2 = none :=
    fun a ha => not_not.mp (hpre a ha)
  rw [hl, getAllConns_of_first_error pre b post e ufrag isIPv6 log hpre2 he] at hok
  simp at hok

/-- C13: when `GetAllConns(ufrag, isIPv6)` fails because backend `b` (at index
`pre.length`) is the first to return an error, the fan-out stops there and nothing
is rolled back: the calls added to the log are exactly one
`GetConnByUfrag(ufrag, isIPv6)` on each of the backends up to and including `b`,
in order (no `RemoveConnByUfrag`, no call on a later backend); the backends before
`b` keep the state their successful get produced and the backends after `b` are
unchanged. -/
theorem C13_getAllConns_failure_stops_without_rollback
    (pre : List (TCPMux σ Conn ε)) (b : TCPMux σ Conn ε) (post : List (TCPMux σ Conn ε))
    (e : Error ε) (ufrag : String) (isIPv6 : Bool) (log : Trace)
    (hpre : ∀ a ∈ pre, (a.getResult ufrag isIPv6).2 = none)
    (hb : (b.getResult ufrag isIPv6).2 = some e) :
    ((NewMultiTCPMuxDefault (pre ++ b :: post)).GetAllConns ufrag isIPv6 log).1 =
        ([], some e) ∧
      ((NewMultiTCPMuxDefault (pre ++ b :: post)).GetAllConns ufrag isIPv6 log).2.2 =
        log ++ (pre ++ [b]).map (fun a => (a.addr, Call.GetConnByUfrag ufrag isIPv6)) ∧
      ((NewMultiTCPMuxDefault (pre ++ b :: post)).GetAllConns ufrag isIPv6 log).2.1.muxs =
        pre.map (fun a => a.afterGet ufrag isIPv6) ++ b.afterGet ufrag isIPv6 :: post := by
  rw [getAllConns_of_first_error pre b post e ufrag isIPv6 log hpre hb]
  exact ⟨rfl, rfl, rfl⟩

/-- Witness for C13: three backends, the second one fails; the log holds one get
on the first and one on the second backend, and nothing for the third. -/
theorem C13_getAllConns_failure_stops_without_rollback_witness :
    ((NewMultiTCPMuxDefault
      [constMux 10 (some 1, none) none, constMux 20 (none, some (Error.other 7)) none,
        constMux 30 (some 3, none) none]).GetAllConns "u" false []).2.2 =
      [(10, Call.GetConnByUfrag "u" false), (20, Call.GetConnByUfrag "u" false)] :=
  (C13_getAllConns_failure_stops_without_rollback
    [constMux 10 (some 1, none) none] (constMux 20 (none, some (Error.other 7)) none)
    [constMux 30 (some 3, none) none] (Error.other 7) "u" false []
    (by simp [constMux, TCPMux.getResult]) rfl).2.1

/-- C14: for a non-empty aggregator, a `GetAllConns(ufrag, isIPv6)` call that
returns no error has invoked `GetConnByUfrag` on every backend exactly once, in
registration order, each time with the caller's `(ufrag, isIPv6)`, including on
backends whose nil connection was skipped: the calls added to the log are one such
get per backend, in list order, and every backend is in the state its own get
produces. -/
theorem C14_getAllConns_success_queries_every_backend_once
    (muxs : List (TCPMux σ Conn ε)) (ufrag : String) (isIPv6 : Bool) (log : Trace)
    (hne : muxs ≠ [])
    (hok : ((NewMultiTCPMuxDefault muxs).GetAllConns ufrag isIPv6 log).1.2 = none) :
    ((NewMultiTCPMuxDefault muxs).GetAllConns ufrag isIPv6 log).2.2 =
        log ++ muxs.map (fun b => (b.addr, Call.GetConnByUfrag ufrag isIPv6)) ∧
      ((NewMultiTCPMuxDefault muxs).GetAllConns ufrag isIPv6 log).2.1.muxs =
        muxs.map (fun b => b.afterGet ufrag isIPv6) := by
  have hall := getAllConns_no_error_imp muxs ufrag isIPv6 log hok
  rw [getAllConns_of_no_error muxs hne ufrag isIPv6 log hall]
  exact ⟨rfl, rfl⟩

/-- Witness for C14: the second backend answers `nil, nil` and is skipped in the
result, yet it was queried once like the first. -/
theorem C14_getAllConns_success_queries_every_backend_once_witness :
    ((NewMultiTCPMuxDefault
      [constMux 10 (some 1, none) none, constMux 20 (none, none) none]).GetAllConns
        "u" false []).2.2 =
      [(10, Call.GetConnByUfrag "u" false), (20, Call.GetConnByUfrag "u" false)] :=
  (C14_getAllConns_success_queries_every_backend_once
    [constMux 10 (some 1, none) none, constMux 20 (none, none) none] "u" false []
    (by simp) rfl).1

/-- C15: the aggregator's `Close` returns a nil error if and only if the `Close`
of every backend returned a nil error, and whenever it returns a non-nil error,
that error is one that some backend's `Close` returned. -/
theorem C15_close_error_comes_from_a_backend
    (muxs : List (TCPMux σ Conn ε)) (log : Trace) :
    (((NewMultiTCPMuxDefault muxs).Close log).1 = none ↔
        ∀ b ∈ muxs, b.closeResult = none) ∧
      (∀ e, ((NewMultiTCPMuxDefault muxs).Close log).1 = some e →
        ∃ b ∈ muxs, b.closeResult = some e) := by
  by_cases hall : ∀ b ∈ muxs, b.closeResult = none
  · have hres : ((NewMultiTCPMuxDefault muxs).Close log).1 = none :=
      MultiTCPMuxDefault.closeLoop_result_of_all_nil muxs none log hall
    refine ⟨⟨fun _ => hall, fun _ => hres⟩, ?_⟩
    intro e he
    rw [hres] at he
    cases he
  · have hex : ∃ b ∈ muxs, b.closeResult ≠ none := by
      push_neg at hall
      exact hall
    obtain ⟨pre, b, post, hl, hb, hpost⟩ :=
      MultiTCPMuxDefault.exists_last_split
        (fun a : TCPMux σ Conn ε => a.closeResult ≠ none) muxs hex
    obtain ⟨e0, he0⟩ := Option.ne_none_iff_exists'.mp hb
    have hpost2 : ∀ a ∈ post, a.closeResult = none :=
      fun a ha => not_not.mp (hpost a ha)
    have hres : ((NewMultiTCPMuxDefault muxs).Close log).1 = some e0 := by
      have h := MultiTCPMuxDefault.closeLoop_result_of_last pre b post e0 none log he0 hpost2
      rw [← hl] at h
      exact h
    have hmem : b ∈ muxs := by
      rw [hl]
      simp
    refine ⟨⟨?_, fun h => absurd h hall⟩, ?_⟩
    · intro hnone
      rw [hres] at hnone
      cases hnone
    · intro e he
      rw [hres] at he
      cases he
      exact ⟨b, hmem, he0⟩

/-- C16: assume the first backend `b` is get-or-create for `(ufrag, isIPv6)`: once
it has returned a non-nil connection without error, a repeated
`GetConnByUfrag(ufrag, isIPv6)` on it returns the same connection without error
(backends have private state throughout).  Then, after a `GetAllConns` that
succeeds with `b` contributing the non-nil connection `c`, `c` is the first element
of the returned list and `GetConnByUfrag` on the aggregator returns `c` without
error; and after a `GetConnByUfrag` that returns `c` without error, a successful
`GetAllConns` returns a list whose first element is `c`. -/
theorem C16_getAllConns_and_getConnByUfrag_agree_on_first
    (b : TCPMux σ Conn ε) (rest : List (TCPMux σ Conn ε))
    (ufrag : String) (isIPv6 : Bool) (log : Trace) (c : Conn)
    (hgoc : ∀ x, b.getResult ufrag isIPv6 = (some x, none) →
      (b.afterGet ufrag isIPv6).getResult ufrag isIPv6 = (some x, none)) :
    (((NewMultiTCPMuxDefault (b :: rest)).GetAllConns ufrag isIPv6 log).1.2 = none →
      (b.getResult ufrag isIPv6).1 = some c →
      ((NewMultiTCPMuxDefault (b :: rest)).GetAllConns ufrag isIPv6 log).1.1.head? = some c ∧
      (((NewMultiTCPMuxDefault (b :: rest)).GetAllConns ufrag isIPv6 log).2.1.GetConnByUfrag
        ufrag isIPv6
        ((NewMultiTCPMuxDefault (b :: rest)).GetAllConns ufrag isIPv6 log).2.2).1 =
          (some c, none)) ∧
    (((NewMultiTCPMuxDefault (b :: rest)).GetConnByUfrag ufrag isIPv6 log).1 = (some c, none) →
      (((NewMultiTCPMuxDefault (b :: rest)).GetConnByUfrag ufrag isIPv6 log).2.1.GetAllConns
        ufrag isIPv6
        ((NewMultiTCPMuxDefault (b :: rest)).GetConnByUfrag ufrag isIPv6 log).2.2).1.2 = none →
      (((NewMultiTCPMuxDefault (b :: rest)).GetConnByUfrag ufrag isIPv6 log).2.1.GetAllConns
        ufrag isIPv6
        ((NewMultiTCPMuxDefault (b :: rest)).GetConnByUfrag ufrag isIPv6 log).2.2).1.1.head? =
          some c) := by
  constructor
  · intro hok hc
    have hall := getAllConns_no_error_imp (b :: rest) ufrag isIPv6 log hok
    have hb : b.getResult ufrag isIPv6 = (some c, none) :=
      Prod.ext hc (hall b (List.mem_cons_self _ _))
    rw [getAllConns_of_no_error (b :: rest) (by simp) ufrag isIPv6 log hall]
    constructor
    · simp [List.filterMap_cons, hb]
    · exact hgoc c hb
  · intro hget hok
    have hb : b.getResult ufrag isIPv6 = (some c, none) := hget
    have hb1 : (b.afterGet ufrag isIPv6).getResult ufrag isIPv6 = (some c, none) :=
      hgoc c hb
    have hstep : (NewMultiTCPMuxDefault (b :: rest)).GetConnByUfrag ufrag isIPv6 log =
        (b.getResult ufrag isIPv6, NewMultiTCPMuxDefault (b.afterGet ufrag isIPv6 :: rest),
          log ++ [(b.addr, Call.GetConnByUfrag ufrag isIPv6)]) := rfl
    rw [hstep] at hok ⊢
    have hall := getAllConns_no_error_imp (b.afterGet ufrag isIPv6 :: rest) ufrag isIPv6 _ hok
    rw [getAllConns_of_no_error (b.afterGet ufrag isIPv6 :: rest) (by simp) ufrag isIPv6 _ hall]
    simp [List.filterMap_cons, hb1]

/-- Witness for C16: two table-backed get-or-create backends.  `GetAllConns`
creates connection `0` on both; `GetConnByUfrag` afterwards returns the existing
connection `0` of the first backend, the first element of the list. -/
theorem C16_getAllConns_and_getConnByUfrag_agree_on_first_witness :
    ((NewMultiTCPMuxDefault [tableMux 10, tableMux 20]).GetAllConns "u" false []).1.1.head? =
        some 0 ∧
      (((NewMultiTCPMuxDefault [tableMux 10, tableMux 20]).GetAllConns
          "u" false []).2.1.GetConnByUfrag "u" false
        ((NewMultiTCPMuxDefault [tableMux 10, tableMux 20]).GetAllConns "u" false []).2.2).1 =
        (some 0, none) :=
  (C16_getAllConns_and_getConnByUfrag_agree_on_first (tableMux 10) [tableMux 20] "u" false [] 0
    (by
      intro x hx
      have h0 : x = 0 := by
        have h1 : (tableMux 10).getResult "u" false = (some 0, none) := rfl
        rw [h1] at hx
        simpa using hx.symm
      subst h0
      rfl)).1 rfl rfl

end ice
